import Mathlib

/-!
Verification of the Sales Report Automation System.

This file is a shallow embedding of `src/report_generator.py` and
`src/email_service.py`.  Conventions:

* A pandas `DataFrame` built from a list of dicts is modelled as a list of
  records with `Option` fields: a *column* exists exactly when some row has
  the key, and a row's `none` entry in an existing column is pandas `NaN`.
* Monetary values (`unit_price`, `price`, `total`) are modelled by exact
  integers (`Money := ℤ`) at a fixed decimal scale: the Python float `9.99`
  is the exact scaled value `999`.  Every decimal literal appearing in the
  program's data and in the specification's examples is exact at this scale,
  and the program performs no division on monetary values, so the scaling is
  a faithful exact model of the float arithmetic on those inputs.
* The filesystem is a list of path strings; `generate_pdf` threads it
  explicitly.  Whether `doc.build` succeeds is an environment fact and is
  passed as the boolean `buildOk`.
* Python exceptions become explicit error values: `pd.Series.astype(int)`
  raising `ValueError` on a bad literal, pandas `KeyError` on a missing
  column, `pd.to_datetime` parse failure, and a failure of `doc.build`.
-/

/-- Monetary amounts: exact integers at a fixed decimal scale
(`999` stands for the float `9.99`). -/
abbrev Money : Type := ℤ

deriving instance DecidableEq for Except

/-! ### Character-level string utilities (kernel-computable) -/

/-- Strict lexicographic order on character lists, comparing code points.
Used to model the sorted group keys of `pandas.groupby(sort=True)`. -/
def charListLt : List Char → List Char → Bool
  | [], [] => false
  | [], _ :: _ => true
  | _ :: _, [] => false
  | a :: as, b :: bs =>
    if a.toNat = b.toNat then charListLt as bs else decide (a.toNat < b.toNat)

/-- Strict lexicographic order on strings. -/
def strLtB (s t : String) : Bool := charListLt s.toList t.toList

/-- Reflexive lexicographic order on strings. -/
def strLeB (s t : String) : Bool := strLtB s t || decide (s = t)

/-- `strStarts p s` models Python `s.startswith(p)`. -/
def strStarts (p s : String) : Bool := p.toList.isPrefixOf s.toList

/-- `strEnds p s` models Python `s.endswith(p)` / `glob("*.json")` matching. -/
def strEnds (p s : String) : Bool := p.toList.isSuffixOf s.toList

/-- Split a character list at every occurrence of `sep` (accumulator form). -/
def splitOnCharAux (sep : Char) : List Char → List Char → List (List Char)
  | [], acc => [acc.reverse]
  | c :: cs, acc =>
    if c = sep then acc.reverse :: splitOnCharAux sep cs []
    else splitOnCharAux sep cs (c :: acc)

/-- Split a character list at every occurrence of `sep`. -/
def splitOnChar (sep : Char) (cs : List Char) : List (List Char) :=
  splitOnCharAux sep cs []

/-- Parse a nonempty digit sequence as a natural number (accumulator form). -/
def digitsValAux : List Char → ℕ → Option ℕ
  | [], acc => some acc
  | c :: cs, acc =>
    if c.isDigit then digitsValAux cs (acc * 10 + (c.toNat - 48)) else none

/-- Parse a nonempty digit sequence as a natural number. -/
def digitsVal : List Char → Option ℕ
  | [] => none
  | c :: cs => digitsValAux (c :: cs) 0

/-- Parse an optionally-signed integer literal, as Python `int(str)` does on
the string values met in this program. -/
def parseIntStr (s : String) : Option ℤ :=
  match s.toList with
  | [] => none
  | '-' :: rest => (digitsVal rest).map (fun n => -(n : ℤ))
  | cs => (digitsVal cs).map (fun n => (n : ℤ))

/-- Model of `pd.to_datetime` on the date strings this program meets:
`YYYY-MM-DD` or `YYYY/MM/DD` parse to the calendar date encoded as
`y * 10000 + m * 100 + d`; anything else fails.  Distinct strings (e.g.
`2024-01-01` and `2024/01/01`) can parse to the same calendar date. -/
def parseDate (s : String) : Option ℕ :=
  let cs := s.toList
  let parts :=
    if (splitOnChar '-' cs).length = 3 then splitOnChar '-' cs
    else splitOnChar '/' cs
  match parts with
  | [y, m, d] =>
    match digitsVal y, digitsVal m, digitsVal d with
    | some yn, some mn, some dn =>
      if 1 ≤ mn ∧ mn ≤ 12 ∧ 1 ≤ dn ∧ dn ≤ 31 then
        some (yn * 10000 + mn * 100 + dn)
      else none
    | _, _, _ => none
  | _ => none

/-! ### Data model -/

/-- A raw `quantity` cell: Python sends either a number or a string. -/
inductive QtyVal where
  | intVal : ℤ → QtyVal
  | strVal : String → QtyVal
deriving DecidableEq

/-- One raw input record (one dict of the `rows` list).  A `none` field means
the key is absent from the dict. -/
structure RawRow where
  date : Option String
  order_id : Option String
  model : Option String
  quantity : Option QtyVal
  unit_price : Option Money
  price : Option Money
  total : Option Money
deriving DecidableEq

/-- One normalized row of the DataFrame produced by `_safe_df_from_rows`.
`unit_price`/`total` stay `Option` because a row can hold `NaN` there (its
key absent while the column exists); `quantity` cannot (`astype(int)` raises
on `NaN`). -/
structure SalesRow where
  date : Option String
  order_id : Option String
  model : Option String
  quantity : ℤ
  unit_price : Option Money
  total : Option Money
deriving DecidableEq

/-- Failures of `_safe_df_from_rows`: `df['quantity'].astype(int)` raises
`ValueError: invalid literal for int() ...` naming the offending literal, or
`ValueError: cannot convert float NaN to integer` on a missing cell. -/
inductive NormError where
  | badQuantity : String → NormError
  | nanQuantity : NormError
deriving DecidableEq

/-! ### Row normalization (`_safe_df_from_rows`) -/

/-- `'quantity' in df.columns`: some raw row carries the key. -/
def hasQuantityCol (rows : List RawRow) : Bool :=
  rows.any (fun r => r.quantity.isSome)

/-- `'unit_price' in df.columns`. -/
def hasUnitPriceCol (rows : List RawRow) : Bool :=
  rows.any (fun r => r.unit_price.isSome)

/-- `'price' in df.columns`. -/
def hasPriceCol (rows : List RawRow) : Bool :=
  rows.any (fun r => r.price.isSome)

/-- Python `int()` applied to one `quantity` cell. -/
def parseQty : QtyVal → Except NormError ℤ
  | .intVal n => .ok n
  | .strVal s =>
    match parseIntStr s with
    | some n => .ok n
    | none => .error (.badQuantity s)

/-- The normalized `quantity` of one row: if the column is absent the code
sets the whole column to `1`; otherwise `astype(int)` parses the cell and
raises on `NaN` or a non-numeric literal. -/
def rowQty (hq : Bool) : Option QtyVal → Except NormError ℤ
  | some v => if hq then parseQty v else .ok 1
  | none => if hq then .error .nanQuantity else .ok 1

/-- The normalized `unit_price` of one row: the `unit_price` column if it
exists, else the whole `price` column, else the constant `0.0`.  The
fallback is decided per column, not per row. -/
def rawUnitPrice (hu hp : Bool) (r : RawRow) : Option Money :=
  if hu then r.unit_price else if hp then r.price else some 0

/-- Normalize one raw record, given the column-existence flags of the whole
input.  `total` is recomputed as `quantity * unit_price`; the raw `total`
field is never read. -/
def normalizeRow (hq hu hp : Bool) (r : RawRow) : Except NormError SalesRow :=
  match rowQty hq r.quantity with
  | .error e => .error e
  | .ok q =>
    let up := rawUnitPrice hu hp r
    .ok { date := r.date, order_id := r.order_id, model := r.model,
          quantity := q, unit_price := up,
          total := up.map (fun p => q * p) }

/-- Effectful map over a list, stopping at the first error (the elementwise
behaviour of `astype` on a column). -/
def mapE (f : α → Except ε β) : List α → Except ε (List β)
  | [] => .ok []
  | a :: l =>
    match f a with
    | .error e => .error e
    | .ok b =>
      match mapE f l with
      | .error e => .error e
      | .ok bs => .ok (b :: bs)

/-- `_safe_df_from_rows`: convert the raw records to the normalized
DataFrame, or raise the first conversion error. -/
def safeDfFromRows (rows : List RawRow) : Except NormError (List SalesRow) :=
  mapE (normalizeRow (hasQuantityCol rows) (hasUnitPriceCol rows) (hasPriceCol rows)) rows

/-- Overwrite the raw `total` field of a record (used to state that input
`total` values are ignored). -/
def setTotal (t : Option Money) (r : RawRow) : RawRow :=
  { r with total := t }

/-- The recomputed total of one raw record, read off directly from the raw
input under the column flags of the whole input: parsed quantity times the
fallback unit price, a `NaN` product counting `0` towards a skip-`NaN` sum. -/
def rawTerm (hq hu hp : Bool) (r : RawRow) : Money :=
  match rowQty hq r.quantity with
  | .ok q => ((rawUnitPrice hu hp r).map (fun p => q * p)).getD 0
  | .error _ => 0

/-! ### Aggregation -/

/-- The contribution of a normalized row to any pandas sum: `NaN` cells are
skipped (`sum(skipna=True)`), i.e. count as `0`. -/
def rowTot (r : SalesRow) : Money := r.total.getD 0

/-- `df['total'].sum()`. -/
def totalRevenue (table : List SalesRow) : Money :=
  (table.map rowTot).sum

/-- `'model' in df.columns` for the normalized table. -/
def hasModelColT (table : List SalesRow) : Bool :=
  table.any (fun r => r.model.isSome)

/-- `'date' in df.columns` for the normalized table. -/
def hasDateColT (table : List SalesRow) : Bool :=
  table.any (fun r => r.date.isSome)

/-- `'order_id' in df.columns` for the normalized table. -/
def hasOrderColT (table : List SalesRow) : Bool :=
  table.any (fun r => r.order_id.isSome)

/-- Revenue of one `model` group: `groupby('model')['total'].sum()` for one
key.  Rows whose `model` is `NaN` belong to no group (`dropna=True`). -/
def grpRev (table : List SalesRow) (m : String) : Money :=
  ((table.filter (fun r => r.model = some m)).map rowTot).sum

/-- Stable insertion of one element for `sortOrd`: `x` is placed before the
first `y` it may precede. -/
def insOrd (le : α → α → Bool) (x : α) : List α → List α
  | [] => [x]
  | y :: ys => if le x y then x :: y :: ys else y :: insOrd le x ys

/-- Stable insertion sort by the comparator `le` (the stable sort pandas
performs on these small frames). -/
def sortOrd (le : α → α → Bool) : List α → List α
  | [] => []
  | x :: xs => insOrd le x (sortOrd le xs)

/-- Comparator: ascending string order (the key order `groupby(sort=True)`
produces). -/
def keyLe (s t : String) : Bool := strLeB s t

/-- Comparator for `sort_values(ascending=False)` on `(label, revenue)`
pairs: descending revenue. -/
def revLe (g h : String × Money) : Bool := decide (h.2 ≤ g.2)

/-- The distinct `model` keys of the table in the ascending order produced
by `groupby('model', sort=True)`; `NaN` keys are dropped. -/
def modelKeys (table : List SalesRow) : List String :=
  sortOrd keyLe ((table.filterMap (fun r => r.model)).dedup)

/-- `df.groupby('model')['total'].sum().sort_values(ascending=False).head(5)`:
the top-5 per-model revenues, descending. -/
def topModels (table : List SalesRow) : List (String × Money) :=
  (sortOrd revLe ((modelKeys table).map (fun m => (m, grpRev table m)))).take 5

/-- The order in which `topModels` lists its entries: strictly greater
revenue first, and among equal revenues ascending label order (the stable
sort acts on the alphabetically sorted group keys). -/
def topOrd (a b : String × Money) : Prop :=
  b.2 < a.2 ∨ (a.2 = b.2 ∧ strLtB a.1 b.1 = true)

/-- `df['order_id'].nunique() if 'order_id' in df.columns else len(df)`:
`nunique` counts distinct non-`NaN` values. -/
def ordersCount (table : List SalesRow) : ℕ :=
  if hasOrderColT table then ((table.filterMap (fun r => r.order_id)).dedup).length
  else table.length

/-- Revenue of one `date` group, grouping on exact string equality. -/
def dateRevenue (table : List SalesRow) (d : String) : Money :=
  ((table.filter (fun r => r.date = some d)).map rowTot).sum

/-- The distinct `date` strings in the ascending key order of
`groupby(df['date'], sort=True)`; `NaN` dates are dropped. -/
def dateKeys (table : List SalesRow) : List String :=
  sortOrd keyLe ((table.filterMap (fun r => r.date)).dedup)

/-- `df.groupby(df['date'])['total'].sum().reset_index()`: one entry per
distinct date string. -/
def dailyGroups (table : List SalesRow) : List (String × Money) :=
  (dateKeys table).map (fun d => (d, dateRevenue table d))

/-- `daily['date'] = pd.to_datetime(daily['date'])`: parse every date key,
failing if any key is unparsable. -/
def toDatetimeAll : List (String × Money) → Option (List (ℕ × Money))
  | [] => some []
  | e :: l =>
    match parseDate e.1, toDatetimeAll l with
    | some d, some rest => some ((d, e.2) :: rest)
    | _, _ => none

/-- Comparator for `daily.sort_values('date')`: ascending parsed date. -/
def dateLe (a b : ℕ × Money) : Bool := decide (a.1 ≤ b.1)

/-- The daily series drawn by `_create_charts`: group by exact date string,
parse the keys, sort ascending by parsed calendar date. -/
def dailySeries (table : List SalesRow) : Option (List (ℕ × Money)) :=
  match toDatetimeAll (dailyGroups table) with
  | none => none
  | some l => some (sortOrd dateLe l)

/-! ### The report pipeline (`generate_pdf`) -/

/-- Failures of `generate_pdf`: a normalization `ValueError`, a pandas
`KeyError` for a missing column, a `pd.to_datetime` parse failure, or a
failure while building the PDF document. -/
inductive PdfError where
  | normErr : NormError → PdfError
  | keyError : String → PdfError
  | dateParseError : PdfError
  | composeError : PdfError
deriving DecidableEq

/-- The temporary directory `tempfile.mkdtemp(prefix="report_")` of one
invocation. -/
def tmpd : String := "report_tmp"

/-- The pie-chart image path inside the temporary directory. -/
def piePath : String := "report_tmp/pie.png"

/-- The daily-chart image path inside the temporary directory. -/
def dailyPath : String := "report_tmp/daily.png"

/-- `os.remove`: drop a path from the filesystem. -/
def rmFile (fs : List String) (p : String) : List String :=
  fs.filter (fun f => f ≠ p)

/-- `os.rmdir` wrapped in `try/except OSError: pass`: the directory is
removed only when nothing is left inside it. -/
def rmdirIfEmpty (fs : List String) (d : String) : List String :=
  if fs.any (fun f => f ≠ d && strStarts (d ++ "/") f) then fs else rmFile fs d

/-- `generate_pdf(rows, out_pdf_path, title)` over an explicit filesystem.
Stages, in source order: normalize; summary aggregates (the `model` groupby
raises `KeyError` when the column is absent); create the temporary directory;
draw and save the pie chart; group and parse the dates and save the daily
chart; build the document at `outPath` (succeeding iff `buildOk`); remove the
two images and, if then empty, the temporary directory.  The cleanup runs
only after a successful `doc.build`. -/
def generate_pdf (rows : List RawRow) (outPath : String) (buildOk : Bool)
    (fs : List String) : Except PdfError String × List String :=
  match safeDfFromRows rows with
  | .error e => (.error (.normErr e), fs)
  | .ok df =>
    if hasModelColT df then
      let fs2 := piePath :: tmpd :: fs
      if hasDateColT df then
        match toDatetimeAll (dailyGroups df) with
        | none => (.error .dateParseError, fs2)
        | some _ =>
          let fs3 := dailyPath :: fs2
          if buildOk then
            let fs4 := outPath :: fs3
            (.ok outPath, rmdirIfEmpty (rmFile (rmFile fs4 piePath) dailyPath) tmpd)
          else (.error .composeError, fs3)
      else (.error (.keyError "date"), fs2)
    else (.error (.keyError "model"), fs)

/-! ### The email simulator (`send_simulated_email`) -/

/-- `FileNotFoundError(f"PDF not found: ...")`. -/
inductive EmailError where
  | fileNotFound : String → EmailError
deriving DecidableEq

/-- The metadata record returned by `send_simulated_email`. -/
structure EmailMeta where
  id : ℕ
  timestamp : String
  sender : String
  recipient : String
  subject : String
  body : String
  attachment : String
deriving DecidableEq

/-- `len(list(SENT_DIR.glob("*.json")))` over the modelled `sent_emails`
directory. -/
def countJson (sent : List String) : ℕ :=
  (sent.filter (fun f => strEnds ".json" f)).length

/-- `send_simulated_email(pdf_path)` over the modelled `sent_emails`
directory: check the PDF exists, copy it under a timestamped name, then
count the `*.json` files (after the copy) to pick the metadata id, and write
`{id}.json`.  `pdfExists` says whether `pdf_path` names an existing file and
`ts` is the current timestamp string. -/
def send_simulated_email (pdfName : String) (pdfExists : Bool) (ts : String)
    (sent : List String) : Except EmailError EmailMeta × List String :=
  if pdfExists then
    let saved := ts ++ "_" ++ pdfName
    let sent1 := saved :: sent
    let mid := countJson sent1 + 1
    let meta : EmailMeta :=
      { id := mid, timestamp := ts, sender := "abdullahkh1298@gmail.com",
        recipient := "boss@example.com", subject := "Monthly Sales Report",
        body := "Please find attached.", attachment := saved }
    (.ok meta, (toString mid ++ ".json") :: sent1)
  else (.error (.fileNotFound pdfName), sent)

/-! ### Concrete inputs used by the witnesses and counterexamples -/

/-- The specification's worked scenario, at the money scale: two orders on
one day, models `X` and `Y`, unit prices `10.00` and `5.00`. -/
def c1Rows : List RawRow :=
  [ ⟨some "2024-01-01", some "A1", some "X", some (.intVal 2), some 1000, none, none⟩,
    ⟨some "2024-01-01", some "A2", some "Y", some (.intVal 1), some 500, none, none⟩ ]

/-- The normalized table of `c1Rows`. -/
def c1Table : List SalesRow :=
  [ ⟨some "2024-01-01", some "A1", some "X", 2, some 1000, some 2000⟩,
    ⟨some "2024-01-01", some "A2", some "Y", 1, some 500, some 500⟩ ]

/-- Seven single-row models; `B` appears before `A` in the input and ties it
at revenue `10`, and `G` has negative revenue `-6`. -/
def c3Table : List SalesRow :=
  [ ⟨some "2024-01-01", some "o1", some "B", 1, some 10, some 10⟩,
    ⟨some "2024-01-01", some "o2", some "A", 1, some 10, some 10⟩,
    ⟨some "2024-01-01", some "o3", some "C", 1, some 8, some 8⟩,
    ⟨some "2024-01-01", some "o4", some "D", 1, some 7, some 7⟩,
    ⟨some "2024-01-01", some "o5", some "E", 1, some 6, some 6⟩,
    ⟨some "2024-01-01", some "o6", some "F", 1, some 5, some 5⟩,
    ⟨some "2024-01-01", some "o7", some "G", 1, some (-6), some (-6)⟩ ]

/-- A nonnegative two-model table for the `C3` witness. -/
def c3wTable : List SalesRow :=
  [ ⟨some "2024-01-01", some "A1", some "X", 2, some 1000, some 2000⟩,
    ⟨some "2024-01-01", some "A2", some "Y", 1, some 500, some 500⟩ ]

/-- A raw record with a `price` field (`9.99`) but no `unit_price`. -/
def c4Row : RawRow :=
  ⟨some "2024-01-01", none, some "X", some (.intVal 2), none, some 999, none⟩

/-- A raw record whose `quantity` is the non-numeric string `"abc"`. -/
def c5Row : RawRow :=
  ⟨some "2024-01-01", none, some "X", some (.strVal "abc"), some 100, none, none⟩

/-- A table whose second row has no `model` field. -/
def c6Table : List SalesRow :=
  [ ⟨some "2024-01-01", some "A1", some "X", 1, some 5, some 5⟩,
    ⟨some "2024-01-01", some "A2", none, 1, some 7, some 7⟩ ]

/-- Two rows whose distinct date strings spell the same calendar date. -/
def c7Table : List SalesRow :=
  [ ⟨some "2024-01-01", some "o1", some "X", 1, some 1, some 1⟩,
    ⟨some "2024/01/01", some "o2", some "X", 1, some 2, some 2⟩ ]

/-- Two rows on two distinct dates, for the `C7` witness. -/
def c7wTable : List SalesRow :=
  [ ⟨some "2024-01-02", some "o1", some "X", 1, some 3, some 3⟩,
    ⟨some "2024-01-01", some "o2", some "X", 1, some 2, some 2⟩ ]

/-- Valid raw rows for exercising the `generate_pdf` cleanup paths. -/
def c8Rows : List RawRow :=
  [ ⟨some "2024-01-01", some "A1", some "X", some (.intVal 2), some 1000, none, none⟩ ]

/-- Two rows whose `order_id` fields are both the empty string. -/
def c9Table : List SalesRow :=
  [ ⟨some "2024-01-01", some "", some "X", 1, some 1, some 1⟩,
    ⟨some "2024-01-02", some "", some "X", 1, some 1, some 1⟩ ]

/-! ### Generic facts about the stable insertion sort -/

theorem mem_insOrd (le : α → α → Bool) (x a : α) :
    ∀ l : List α, a ∈ insOrd le x l ↔ a = x ∨ a ∈ l := by
  intro l
  induction l with
  | nil => simp [insOrd]
  | cons y ys ih =>
    cases hxy : le x y with
    | true => simp [insOrd, hxy, List.mem_cons]
    | false =>
      simp [insOrd, hxy, List.mem_cons, ih]
      tauto

theorem perm_insOrd (le : α → α → Bool) (x : α) :
    ∀ l : List α, (insOrd le x l).Perm (x :: l) := by
  intro l
  induction l with
  | nil => simp [insOrd]
  | cons y ys ih =>
    cases hxy : le x y with
    | true => simp [insOrd, hxy]
    | false =>
      simp only [insOrd, hxy]
      exact (ih.cons y).trans (List.Perm.swap x y ys)

theorem perm_sortOrd (le : α → α → Bool) :
    ∀ l : List α, (sortOrd le l).Perm l := by
  intro l
  induction l with
  | nil => simp [sortOrd]
  | cons x xs ih => exact (perm_insOrd le x (sortOrd le xs)).trans (ih.cons x)

theorem pairwise_insOrd (le : α → α → Bool)
    (htot : ∀ a b, le a b = false → le b a = true)
    (htr : ∀ a b c, le a b = true → le b c = true → le a c = true)
    (x : α) : ∀ l : List α, l.Pairwise (fun a b => le a b = true) →
    (insOrd le x l).Pairwise (fun a b => le a b = true) := by
  intro l
  induction l with
  | nil => intro _; simp [insOrd]
  | cons y ys ih =>
    intro hp
    rw [List.pairwise_cons] at hp
    cases hxy : le x y with
    | true =>
      simp only [insOrd, hxy, if_true]
      rw [List.pairwise_cons]
      refine ⟨?_, List.pairwise_cons.mpr hp⟩
      intro a ha
      rcases List.mem_cons.mp ha with rfl | ha2
      · exact hxy
      · exact htr x y a hxy (hp.1 a ha2)
    | false =>
      simp only [insOrd, hxy]
      rw [if_neg Bool.false_ne_true]
      rw [List.pairwise_cons]
      refine ⟨?_, ih hp.2⟩
      intro a ha
      rcases (mem_insOrd le x a ys).mp ha with rfl | ha2
      · exact htot _ _ hxy
      · exact hp.1 a ha2

theorem pairwise_sortOrd (le : α → α → Bool)
    (htot : ∀ a b, le a b = false → le b a = true)
    (htr : ∀ a b c, le a b = true → le b c = true → le a c = true) :
    ∀ l : List α, (sortOrd le l).Pairwise (fun a b => le a b = true) := by
  intro l
  induction l with
  | nil => simp [sortOrd]
  | cons x xs ih => exact pairwise_insOrd le htot htr x _ ih

/-! ### The lexicographic string order -/

theorem char_toNat_inj {a b : Char} (h : a.toNat = b.toNat) : a = b := by
  have h2 := congrArg Char.ofNat h
  rwa [Char.ofNat_toNat, Char.ofNat_toNat] at h2

theorem charListLt_total : ∀ x y : List Char,
    charListLt x y = false → x ≠ y → charListLt y x = true := by
  intro x
  induction x with
  | nil =>
    intro y h hne
    cases y with
    | nil => exact absurd rfl hne
    | cons b bs => simp [charListLt] at h
  | cons a as ih =>
    intro y h hne
    cases y with
    | nil => simp [charListLt]
    | cons b bs =>
      by_cases hab : a.toNat = b.toNat
      · have hab2 : a = b := char_toNat_inj hab
        simp only [charListLt, hab, if_true, if_pos] at h
        have hne2 : as ≠ bs := by
          intro hh
          exact hne (by rw [hab2, hh])
        have hba : b.toNat = a.toNat := hab.symm
        simp only [charListLt, hba, if_true, if_pos]
        exact ih bs h hne2
      · simp only [charListLt, if_neg hab] at h
        rw [decide_eq_false_iff_not] at h
        have hba : ¬ b.toNat = a.toNat := fun hh => hab hh.symm
        have hlt : b.toNat < a.toNat :=
          lt_of_le_of_ne (Nat.le_of_not_lt h) hba
        simp only [charListLt, if_neg hba]
        exact decide_eq_true hlt

theorem charListLt_trans : ∀ x y z : List Char,
    charListLt x y = true → charListLt y z = true → charListLt x z = true := by
  intro x
  induction x with
  | nil =>
    intro y z hxy hyz
    cases y with
    | nil => simp [charListLt] at hxy
    | cons b bs =>
      cases z with
      | nil => simp [charListLt] at hyz
      | cons c cs => simp [charListLt]
  | cons a as ih =>
    intro y z hxy hyz
    cases y with
    | nil => simp [charListLt] at hxy
    | cons b bs =>
      cases z with
      | nil => simp [charListLt] at hyz
      | cons c cs =>
        by_cases hab : a.toNat = b.toNat
        · by_cases hbc : b.toNat = c.toNat
          · have hac : a.toNat = c.toNat := hab.trans hbc
            simp only [charListLt, if_pos hab] at hxy
            simp only [charListLt, if_pos hbc] at hyz
            simp only [charListLt, if_pos hac]
            exact ih bs cs hxy hyz
          · simp only [charListLt, if_neg hbc] at hyz
            rw [decide_eq_true_iff] at hyz
            have hac : a.toNat < c.toNat := hab ▸ hyz
            simp only [charListLt, if_neg (Nat.ne_of_lt hac)]
            exact decide_eq_true hac
        · simp only [charListLt, if_neg hab] at hxy
          rw [decide_eq_true_iff] at hxy
          by_cases hbc : b.toNat = c.toNat
          · have hac : a.toNat < c.toNat := hbc ▸ hxy
            simp only [charListLt, if_neg (Nat.ne_of_lt hac)]
            exact decide_eq_true hac
          · simp only [charListLt, if_neg hbc] at hyz
            rw [decide_eq_true_iff] at hyz
            have hac : a.toNat < c.toNat := Nat.lt_trans hxy hyz
            simp only [charListLt, if_neg (Nat.ne_of_lt hac)]
            exact decide_eq_true hac

theorem string_toList_inj {s t : String} (h : s.toList = t.toList) : s = t := by
  cases s with
  | mk d1 =>
    cases t with
    | mk d2 =>
      simp only [String.toList] at h
      exact congrArg String.mk h

theorem strLeB_total : ∀ s t : String, strLeB s t = false → strLeB t s = true := by
  intro s t h
  unfold strLeB at h ⊢
  rw [Bool.or_eq_false_iff] at h
  rw [decide_eq_false_iff_not] at *
  have hne : s ≠ t := h.2
  have hne2 : s.toList ≠ t.toList := fun hh => hne (string_toList_inj hh)
  have := charListLt_total s.toList t.toList h.1 hne2
  unfold strLtB
  rw [this]
  simp

theorem strLeB_trans : ∀ s t u : String,
    strLeB s t = true → strLeB t u = true → strLeB s u = true := by
  intro s t u hst htu
  unfold strLeB strLtB at hst htu ⊢
  rw [Bool.or_eq_true_iff] at hst htu ⊢
  rcases hst with h1 | h1
  · rcases htu with h2 | h2
    · exact Or.inl (charListLt_trans _ _ _ h1 h2)
    · rw [decide_eq_true_iff] at h2
      subst h2
      exact Or.inl h1
  · rw [decide_eq_true_iff] at h1
    subst h1
    exact htu

theorem strLtB_of_le_ne {s t : String} (h : strLeB s t = true) (hne : s ≠ t) :
    strLtB s t = true := by
  unfold strLeB at h
  rw [Bool.or_eq_true_iff] at h
  rcases h with h | h
  · exact h
  · rw [decide_eq_true_iff] at h
    exact absurd h hne

/-! ### The order of the top-models listing -/

theorem pairwise_topOrd_insOrd (x : String × Money) :
    ∀ l : List (String × Money), l.Pairwise topOrd →
    (∀ y ∈ l, strLtB x.1 y.1 = true) →
    (insOrd revLe x l).Pairwise topOrd := by
  intro l
  induction l with
  | nil => intro _ _; simp [insOrd]
  | cons y ys ih =>
    intro hp hx
    rw [List.pairwise_cons] at hp
    cases hxy : revLe x y with
    | true =>
      have hyx : y.2 ≤ x.2 := of_decide_eq_true hxy
      simp only [insOrd, hxy, if_true]
      rw [List.pairwise_cons]
      refine ⟨?_, List.pairwise_cons.mpr hp⟩
      intro z hz
      rcases List.mem_cons.mp hz with rfl | hz2
      · rcases lt_or_eq_of_le hyx with hlt | heq
        · exact Or.inl hlt
        · exact Or.inr ⟨heq.symm, hx z (List.mem_cons_self z ys)⟩
      · have hyz : topOrd y z := hp.1 z hz2
        have hzy : z.2 ≤ y.2 := by
          rcases hyz with hh | hh
          · exact le_of_lt hh
          · exact le_of_eq hh.1.symm
        rcases lt_or_eq_of_le (le_trans hzy hyx) with hlt | heq
        · exact Or.inl hlt
        · exact Or.inr ⟨heq.symm, hx z (List.mem_cons_of_mem y hz2)⟩
    | false =>
      have hxy2 : x.2 < y.2 := lt_of_not_le (of_decide_eq_false hxy)
      simp only [insOrd, hxy]
      rw [if_neg Bool.false_ne_true]
      rw [List.pairwise_cons]
      refine ⟨?_, ih hp.2 (fun z hz => hx z (List.mem_cons_of_mem y hz))⟩
      intro z hz
      rcases (mem_insOrd revLe x z ys).mp hz with rfl | hz2
      · exact Or.inl hxy2
      · exact hp.1 z hz2

theorem pairwise_topOrd_sortOrd :
    ∀ l : List (String × Money), l.Pairwise (fun a b => strLtB a.1 b.1 = true) →
    (sortOrd revLe l).Pairwise topOrd := by
  intro l
  induction l with
  | nil => intro _; simp [sortOrd]
  | cons x xs ih =>
    intro hp
    rw [List.pairwise_cons] at hp
    exact pairwise_topOrd_insOrd x _ (ih hp.2)
      (fun y hy => hp.1 y ((perm_sortOrd revLe xs).mem_iff.mp hy))

/-! ### Facts about the sorted key lists -/

theorem modelKeys_nodup (table : List SalesRow) : (modelKeys table).Nodup :=
  (perm_sortOrd keyLe _).symm.nodup (List.nodup_dedup _)

theorem mem_modelKeys (table : List SalesRow) (m : String) :
    m ∈ modelKeys table ↔ ∃ r ∈ table, r.model = some m := by
  unfold modelKeys
  rw [(perm_sortOrd keyLe _).mem_iff, List.mem_dedup, List.mem_filterMap]

theorem keyLe_total : ∀ a b : String, keyLe a b = false → keyLe b a = true :=
  strLeB_total

theorem keyLe_trans : ∀ a b c : String,
    keyLe a b = true → keyLe b c = true → keyLe a c = true :=
  strLeB_trans

theorem modelKeys_sorted (table : List SalesRow) :
    (modelKeys table).Pairwise (fun a b => strLtB a b = true) := by
  have h1 : (modelKeys table).Pairwise (fun a b => keyLe a b = true) :=
    pairwise_sortOrd keyLe keyLe_total keyLe_trans _
  have h2 : (modelKeys table).Pairwise (fun a b => a ≠ b) := modelKeys_nodup table
  exact (h1.and h2).imp (fun h => strLtB_of_le_ne h.1 h.2)

theorem dateKeys_nodup (table : List SalesRow) : (dateKeys table).Nodup :=
  (perm_sortOrd keyLe _).symm.nodup (List.nodup_dedup _)

theorem mem_dateKeys (table : List SalesRow) (d : String) :
    d ∈ dateKeys table ↔ ∃ r ∈ table, r.date = some d := by
  unfold dateKeys
  rw [(perm_sortOrd keyLe _).mem_iff, List.mem_dedup, List.mem_filterMap]

/-! ### Sum bookkeeping -/

theorem sum_map_filter_split (f : α → Money) (p : α → Bool) :
    ∀ l : List α,
    ((l.filter p).map f).sum + ((l.filter (fun a => !(p a))).map f).sum = (l.map f).sum := by
  intro l
  induction l with
  | nil => simp
  | cons a l ih =>
    cases hp : p a with
    | true =>
      simp only [List.filter_cons, hp, Bool.not_true, if_true,
        if_neg Bool.false_ne_true, List.map_cons, List.sum_cons]
      linarith [ih]
    | false =>
      simp only [List.filter_cons, hp, Bool.not_false, if_true,
        if_neg Bool.false_ne_true, List.map_cons, List.sum_cons]
      linarith [ih]

theorem grpRev_filter_ne (table : List SalesRow) (k m : String) (hne : m ≠ k) :
    grpRev (table.filter (fun r => !(decide (r.model = some k)))) m = grpRev table m := by
  unfold grpRev
  rw [List.filter_filter]
  have heq : table.filter (fun a => decide (a.model = some m) && !(decide (a.model = some k))) =
      table.filter (fun r => decide (r.model = some m)) := by
    apply List.filter_congr
    intro r _
    by_cases h : r.model = some m
    · have h2 : ¬ r.model = some k := by
        rw [h]
        intro hh
        exact hne (Option.some_injective _ hh)
      simp [h, h2, hne]
    · simp [h]
  rw [heq]

theorem grpRev_nonneg (table : List SalesRow) (hpos : ∀ r ∈ table, 0 ≤ rowTot r)
    (m : String) : 0 ≤ grpRev table m := by
  apply List.sum_nonneg
  intro x hx
  rcases List.mem_map.mp hx with ⟨r, hr, rfl⟩
  exact hpos r (List.mem_filter.mp hr).1

theorem sum_grpRev_le : ∀ keys : List String, keys.Nodup →
    ∀ table : List SalesRow, (∀ r ∈ table, 0 ≤ rowTot r) →
    (keys.map (fun m => grpRev table m)).sum ≤ totalRevenue table := by
  intro keys
  induction keys with
  | nil =>
    intro _ table hpos
    simp only [List.map_nil, List.sum_nil, totalRevenue]
    apply List.sum_nonneg
    intro x hx
    rcases List.mem_map.mp hx with ⟨r, hr, rfl⟩
    exact hpos r hr
  | cons k ks ih =>
    intro hnd table hpos
    rw [List.nodup_cons] at hnd
    simp only [List.map_cons, List.sum_cons]
    have hmaps : ks.map (fun m => grpRev table m) =
        ks.map (fun m => grpRev (table.filter (fun r => !(decide (r.model = some k)))) m) := by
      apply List.map_congr_left
      intro m hm
      exact (grpRev_filter_ne table k m (fun h => hnd.1 (h ▸ hm))).symm
    rw [hmaps]
    have h2 := ih hnd.2 (table.filter (fun r => !(decide (r.model = some k))))
      (fun r hr => hpos r (List.mem_filter.mp hr).1)
    have h3 : grpRev table k +
        totalRevenue (table.filter (fun r => !(decide (r.model = some k)))) =
        totalRevenue table := by
      unfold grpRev totalRevenue
      exact sum_map_filter_split rowTot (fun r => decide (r.model = some k)) table
    linarith [h2, h3]

/-! ### Facts about the effectful map and row normalization -/

theorem mapE_ok_forall2 (f : α → Except ε β) :
    ∀ (l : List α) (t : List β), mapE f l = .ok t →
    List.Forall₂ (fun a b => f a = .ok b) l t := by
  intro l
  induction l with
  | nil =>
    intro t h
    simp only [mapE, Except.ok.injEq] at h
    rw [← h]
    exact List.Forall₂.nil
  | cons a l ih =>
    intro t h
    simp only [mapE] at h
    cases hfa : f a with
    | error e => rw [hfa] at h; simp at h
    | ok b =>
      rw [hfa] at h
      cases hml : mapE f l with
      | error e => rw [hml] at h; simp at h
      | ok bs =>
        rw [hml] at h
        simp only [Except.ok.injEq] at h
        rw [← h]
        exact List.Forall₂.cons hfa (ih bs hml)

theorem mapE_error_of_mem (f : α → Except ε β) (a : α) (e : ε) :
    ∀ l : List α, a ∈ l → f a = .error e → ∃ e2, mapE f l = .error e2 := by
  intro l
  induction l with
  | nil => intro h; simp at h
  | cons x l ih =>
    intro hmem hfa
    rcases List.mem_cons.mp hmem with rfl | h2
    · exact ⟨e, by simp [mapE, hfa]⟩
    · cases hfx : f x with
      | error e3 => exact ⟨e3, by simp [mapE, hfx]⟩
      | ok b =>
        rcases ih h2 hfa with ⟨e2, h4⟩
        exact ⟨e2, by simp [mapE, hfx, h4]⟩

theorem mapE_map (f : β → Except ε γ) (g : α → β) :
    ∀ l : List α, mapE f (l.map g) = mapE (fun a => f (g a)) l := by
  intro l
  induction l with
  | nil => rfl
  | cons a l ih => simp only [List.map_cons, mapE, ih]

theorem forall2_mem_right {R : α → β → Prop} :
    ∀ (l : List α) (t : List β), List.Forall₂ R l t →
    ∀ b ∈ t, ∃ a ∈ l, R a b := by
  intro l t hf
  induction hf with
  | nil => intro b hb; simp at hb
  | cons hab _ ihh =>
    intro b hb
    rcases List.mem_cons.mp hb with rfl | hb2
    · exact ⟨_, List.mem_cons_self _ _, hab⟩
    · rcases ihh b hb2 with ⟨a2, ha2, hr⟩
      exact ⟨a2, List.mem_cons_of_mem _ ha2, hr⟩

theorem pairwise_of_forall2 {R : α → β → Prop} {S : α → α → Prop} {T : β → β → Prop}
    (himp : ∀ a b a2 b2, R a a2 → R b b2 → S a b → T a2 b2) :
    ∀ (l : List α) (t : List β), List.Forall₂ R l t → l.Pairwise S → t.Pairwise T := by
  intro l t hf
  induction hf with
  | nil => intro _; exact List.Pairwise.nil
  | cons hab hrest ihh =>
    intro hp
    rw [List.pairwise_cons] at hp
    rw [List.pairwise_cons]
    refine ⟨?_, ihh hp.2⟩
    intro b2 hb2
    rcases forall2_mem_right _ _ hrest b2 hb2 with ⟨b, hb, hr⟩
    exact himp _ _ _ _ hab hr (hp.1 b hb)

theorem normalizeRow_ok (hq hu hp : Bool) (r : RawRow) (s : SalesRow)
    (h : normalizeRow hq hu hp r = .ok s) :
    ∃ q, rowQty hq r.quantity = .ok q ∧
      s = ⟨r.date, r.order_id, r.model, q, rawUnitPrice hu hp r,
           (rawUnitPrice hu hp r).map (fun p => q * p)⟩ := by
  unfold normalizeRow at h
  cases hrq : rowQty hq r.quantity with
  | error e => rw [hrq] at h; simp at h
  | ok q =>
    rw [hrq] at h
    simp only [Except.ok.injEq] at h
    exact ⟨q, rfl, h.symm⟩

theorem rowTot_of_normalizeRow (hq hu hp : Bool) (r : RawRow) (s : SalesRow)
    (h : normalizeRow hq hu hp r = .ok s) :
    rowTot s = rawTerm hq hu hp r := by
  rcases normalizeRow_ok hq hu hp r s h with ⟨q, hq2, rfl⟩
  unfold rawTerm
  rw [hq2]
  rfl

theorem map_rowTot_of_forall2 (hq hu hp : Bool) :
    ∀ (l : List RawRow) (t : List SalesRow),
    List.Forall₂ (fun a b => normalizeRow hq hu hp a = .ok b) l t →
    t.map rowTot = l.map (rawTerm hq hu hp) := by
  intro l t hf
  induction hf with
  | nil => rfl
  | cons hab _ ihh =>
    simp only [List.map_cons, ihh, rowTot_of_normalizeRow _ _ _ _ _ hab]

theorem normalizeRow_setTotal (hq hu hp : Bool) (t : Option Money) (r : RawRow) :
    normalizeRow hq hu hp (setTotal t r) = normalizeRow hq hu hp r := rfl

theorem hasQuantityCol_setTotal (t : Option Money) (rows : List RawRow) :
    hasQuantityCol (rows.map (setTotal t)) = hasQuantityCol rows := by
  unfold hasQuantityCol
  induction rows with
  | nil => rfl
  | cons r l ih => simp [List.any_cons, ih, setTotal]

theorem hasUnitPriceCol_setTotal (t : Option Money) (rows : List RawRow) :
    hasUnitPriceCol (rows.map (setTotal t)) = hasUnitPriceCol rows := by
  unfold hasUnitPriceCol
  induction rows with
  | nil => rfl
  | cons r l ih => simp [List.any_cons, ih, setTotal]

theorem hasPriceCol_setTotal (t : Option Money) (rows : List RawRow) :
    hasPriceCol (rows.map (setTotal t)) = hasPriceCol rows := by
  unfold hasPriceCol
  induction rows with
  | nil => rfl
  | cons r l ih => simp [List.any_cons, ih, setTotal]

/-! ### Further helpers -/

theorem forall2_order_id (hq hu hp : Bool) :
    ∀ (l : List RawRow) (t : List SalesRow),
    List.Forall₂ (fun a b => normalizeRow hq hu hp a = .ok b) l t →
    t.map (fun s => s.order_id) = l.map (fun r => r.order_id) := by
  intro l t hf
  induction hf with
  | nil => rfl
  | cons hab _ ihh =>
    rcases normalizeRow_ok _ _ _ _ _ hab with ⟨q, _, rfl⟩
    simp only [List.map_cons, ihh]

theorem forall2_any_order (hq hu hp : Bool) :
    ∀ (l : List RawRow) (t : List SalesRow),
    List.Forall₂ (fun a b => normalizeRow hq hu hp a = .ok b) l t →
    t.any (fun s => s.order_id.isSome) = l.any (fun r => r.order_id.isSome) := by
  intro l t hf
  induction hf with
  | nil => rfl
  | cons hab _ ihh =>
    rcases normalizeRow_ok _ _ _ _ _ hab with ⟨q, _, rfl⟩
    simp only [List.any_cons, ihh]

theorem forall2_filterMap_order (hq hu hp : Bool) :
    ∀ (l : List RawRow) (t : List SalesRow),
    List.Forall₂ (fun a b => normalizeRow hq hu hp a = .ok b) l t →
    t.filterMap (fun s => s.order_id) = l.filterMap (fun r => r.order_id) := by
  intro l t hf
  induction hf with
  | nil => rfl
  | cons hab _ ihh =>
    rcases normalizeRow_ok _ _ _ _ _ hab with ⟨q, _, rfl⟩
    cases hor : (_ : RawRow).order_id with
    | none => simp [List.filterMap_cons, hor, ihh]
    | some o => simp [List.filterMap_cons, hor, ihh]

theorem safeDf_singleton (r : RawRow) :
    safeDfFromRows [r] =
      match normalizeRow r.quantity.isSome r.unit_price.isSome r.price.isSome r with
      | .ok s => .ok [s]
      | .error e => .error e := by
  unfold safeDfFromRows
  have h1 : hasQuantityCol [r] = r.quantity.isSome := by
    simp [hasQuantityCol]
  have h2 : hasUnitPriceCol [r] = r.unit_price.isSome := by
    simp [hasUnitPriceCol]
  have h3 : hasPriceCol [r] = r.price.isSome := by
    simp [hasPriceCol]
  rw [h1, h2, h3]
  cases hn : normalizeRow r.quantity.isSome r.unit_price.isSome r.price.isSome r with
  | error e => simp [mapE, hn]
  | ok s => simp [mapE, hn]

theorem countJson_cons_false (f : String) (sent : List String)
    (h : strEnds ".json" f = false) : countJson (f :: sent) = countJson sent := by
  simp [countJson, List.filter_cons, h]

/-! ### The claims -/

/-- Claim C1: for every list of raw rows accepted by normalization, the
aggregate `total_revenue` equals the sum over all rows of
quantity × unit-price read off directly from the raw input (with the
column-level `price` fallback), and any `total` value present in the input
is ignored: overwriting every raw `total` field leaves the normalized table
unchanged. -/
theorem c1_total_revenue_recomputed (rows : List RawRow) (table : List SalesRow)
    (t : Option Money) (h : safeDfFromRows rows = .ok table) :
    totalRevenue table =
      (rows.map (rawTerm (hasQuantityCol rows) (hasUnitPriceCol rows) (hasPriceCol rows))).sum ∧
    safeDfFromRows (rows.map (setTotal t)) = .ok table := by
  constructor
  · unfold totalRevenue
    rw [map_rowTot_of_forall2 _ _ _ _ _ (mapE_ok_forall2 _ _ _ h)]
  · unfold safeDfFromRows
    rw [hasQuantityCol_setTotal, hasUnitPriceCol_setTotal, hasPriceCol_setTotal, mapE_map]
    exact h

/-- Witness for C1 at the specification's worked scenario (unit prices
`10.00` and `5.00`, total revenue `25.00`). -/
theorem c1_total_revenue_recomputed_witness :
    safeDfFromRows c1Rows = .ok c1Table ∧
    (totalRevenue c1Table =
      (c1Rows.map (rawTerm (hasQuantityCol c1Rows) (hasUnitPriceCol c1Rows) (hasPriceCol c1Rows))).sum ∧
     safeDfFromRows (c1Rows.map (setTotal (some 777))) = .ok c1Table) :=
  ⟨by decide, c1_total_revenue_recomputed c1Rows c1Table (some 777) (by decide)⟩

/-- Claim C2 (amended): `generate_pdf` on the empty row list fails with the
pandas `KeyError` for the missing `model` column — the code has no
`EmptyInputError` — and leaves the filesystem untouched, so no file exists
at `out_pdf_path` afterwards if none existed before. -/
theorem c2_empty_rows_keyerror (outPath : String) (b : Bool) (fs : List String) :
    generate_pdf [] outPath b fs = (.error (.keyError "model"), fs) := rfl

/-- Counterexample for C2 as stated: on empty input the failure is the
`KeyError` over the missing `model` column raised at the `top_models`
groupby (i.e. during aggregation), not an `EmptyInputError` raised before
aggregation; no file appears at the output path. -/
theorem c2_counterexample :
    (generate_pdf [] "report.pdf" true []).1 = .error (.keyError "model") ∧
    (generate_pdf [] "report.pdf" true []).2 = [] :=
  ⟨rfl, rfl⟩

/-- Claim C4: a raw row carrying `price` but no `unit_price` normalizes to
the same row — hence the same recomputed total, quantity × price — as the
row carrying the same value in `unit_price` directly. -/
theorem c4_price_fallback (r : RawRow) (p : Money) (q : ℤ)
    (hu : r.unit_price = none) (hpr : r.price = some p)
    (hq2 : rowQty r.quantity.isSome r.quantity = .ok q) :
    safeDfFromRows [r] = safeDfFromRows [{ r with unit_price := some p }] ∧
    safeDfFromRows [r] = .ok [⟨r.date, r.order_id, r.model, q, some p, some (q * p)⟩] := by
  have hA : safeDfFromRows [r] = .ok [⟨r.date, r.order_id, r.model, q, some p, some (q * p)⟩] := by
    rw [safeDf_singleton]
    unfold normalizeRow
    rw [hq2]
    unfold rawUnitPrice
    rw [hu, hpr]
    simp
  have hB : safeDfFromRows [{ r with unit_price := some p }] =
      .ok [⟨r.date, r.order_id, r.model, q, some p, some (q * p)⟩] := by
    rw [safeDf_singleton]
    unfold normalizeRow
    rw [show ({ r with unit_price := some p } : RawRow).quantity = r.quantity from rfl]
    rw [show ({ r with unit_price := some p } : RawRow).quantity.isSome = r.quantity.isSome from rfl]
    rw [hq2]
    unfold rawUnitPrice
    simp
  exact ⟨hA.trans hB.symm, hA⟩

/-- Witness for C4 at the specification's example: quantity 2 and price
`9.99` give the same normalized row and total `19.98` as the direct
`unit_price` variant. -/
theorem c4_price_fallback_witness :
    c4Row.unit_price = none ∧ c4Row.price = some 999 ∧
    rowQty c4Row.quantity.isSome c4Row.quantity = .ok 2 ∧
    (safeDfFromRows [c4Row] = safeDfFromRows [{ c4Row with unit_price := some 999 }] ∧
     safeDfFromRows [c4Row] = .ok [⟨c4Row.date, c4Row.order_id, c4Row.model, 2, some 999, some (2 * 999)⟩]) :=
  ⟨rfl, rfl, rfl, c4_price_fallback c4Row 999 2 rfl rfl rfl⟩

/-- Claim C5 (amended): an input containing a row whose `quantity` is a
present but unparsable literal makes normalization fail; the raised
`ValueError` carries the offending literal, not a row index or field name. -/
theorem c5_bad_quantity (rows : List RawRow) (r : RawRow) (s : String)
    (hmem : r ∈ rows) (hq : r.quantity = some (.strVal s))
    (hbad : parseIntStr s = none) :
    ∃ e, safeDfFromRows rows = .error e := by
  have hcol : hasQuantityCol rows = true := by
    unfold hasQuantityCol
    rw [List.any_eq_true]
    exact ⟨r, hmem, by rw [hq]; rfl⟩
  have hrow : normalizeRow (hasQuantityCol rows) (hasUnitPriceCol rows) (hasPriceCol rows) r
      = .error (.badQuantity s) := by
    unfold normalizeRow
    rw [hq, hcol]
    simp [rowQty, parseQty, hbad]
  exact mapE_error_of_mem _ r (.badQuantity s) rows hmem hrow

/-- Witness for C5: the row `quantity = "abc"` poisons its input. -/
theorem c5_bad_quantity_witness :
    c5Row ∈ [c5Row] ∧ c5Row.quantity = some (.strVal "abc") ∧
    parseIntStr "abc" = none ∧ ∃ e, safeDfFromRows [c5Row] = .error e :=
  ⟨by decide, rfl, by decide, c5_bad_quantity [c5Row] c5Row "abc" (by decide) rfl (by decide)⟩

/-- Counterexample for C5 as stated: the failure on `quantity = "abc"` is
the `ValueError` carrying only the literal `"abc"` — the error names neither
the offending row index nor the field, and no `ValidationError` type exists
in the code. -/
theorem c5_counterexample :
    safeDfFromRows [c5Row] = .error (.badQuantity "abc") := by decide

/-- Claim C6 (amended): every label in the top-models listing comes from a
row that actually carries that `model` value; rows without a `model` field
are dropped from the grouping (`groupby` drops `NaN` keys), and no sentinel
`unknown` bucket is created. -/
theorem c6_missing_model_dropped (table : List SalesRow) (m : String)
    (h : m ∈ (topModels table).map Prod.fst) :
    ∃ r ∈ table, r.model = some m := by
  rcases List.mem_map.mp h with ⟨g, hg, rfl⟩
  have hg2 : g ∈ sortOrd revLe ((modelKeys table).map (fun m2 => (m2, grpRev table m2))) :=
    List.mem_of_mem_take hg
  have hg3 := (perm_sortOrd revLe _).mem_iff.mp hg2
  rcases List.mem_map.mp hg3 with ⟨m2, hm2, rfl⟩
  exact (mem_modelKeys table m2).mp hm2

/-- Witness for C6: the labelled row of `c6Table` explains its only bucket. -/
theorem c6_missing_model_dropped_witness :
    "X" ∈ (topModels c6Table).map Prod.fst ∧ ∃ r ∈ c6Table, r.model = some "X" :=
  ⟨by decide, c6_missing_model_dropped c6Table "X" (by decide)⟩

/-- Counterexample for C6 as stated: a normalized table whose second row has
no `model` produces a top-models listing with no `unknown` bucket; the
modelless row's revenue `7` is counted in `total_revenue = 12` but appears
in no category bucket. -/
theorem c6_counterexample :
    topModels c6Table = [("X", 5)] ∧ totalRevenue c6Table = 12 ∧
    "unknown" ∉ (topModels c6Table).map Prod.fst :=
  ⟨by decide, by decide, by decide⟩

/-- Claim C9 (amended): the reported order count equals the number of
distinct present `order_id` values whenever at least one raw row carries the
`order_id` key — even when every such value is the empty string — and the
number of rows otherwise. -/
theorem c9_order_count (rows : List RawRow) (table : List SalesRow)
    (h : safeDfFromRows rows = .ok table) :
    ordersCount table =
      if rows.any (fun r => r.order_id.isSome) then
        ((rows.filterMap (fun r => r.order_id)).dedup).length
      else rows.length := by
  have hf := mapE_ok_forall2 _ _ _ h
  have hany := forall2_any_order _ _ _ _ _ hf
  have hfm := forall2_filterMap_order _ _ _ _ _ hf
  have hlen : rows.length = table.length := hf.length_eq
  unfold ordersCount hasOrderColT
  rw [hany, hfm, ← hlen]

/-- Witness for C9 at the worked scenario: two distinct order ids. -/
theorem c9_order_count_witness :
    safeDfFromRows c1Rows = .ok c1Table ∧
    ordersCount c1Table =
      if c1Rows.any (fun r => r.order_id.isSome) then
        ((c1Rows.filterMap (fun r => r.order_id)).dedup).length
      else c1Rows.length :=
  ⟨by decide, c9_order_count c1Rows c1Table (by decide)⟩

/-- Counterexample for C9 as stated: two rows whose `order_id` values are
both the empty string — no row has a non-empty `order_id`, so the claim
predicts the row count `2`, but `nunique` counts the one distinct value and
the code reports `1`. -/
theorem c9_counterexample :
    ordersCount c9Table = 1 ∧ c9Table.length = 2 ∧
    ∀ r ∈ c9Table, r.order_id = some "" :=
  ⟨by decide, by decide, by decide⟩

/-- Claim C10 (amended): when the PDF is missing, `send_simulated_email`
raises `FileNotFoundError` before any write and the sent-mail store is
unchanged; when it exists, the returned metadata names the copied file and
its id is one more than the number of `*.json` files counted after the copy
— which equals the count before the call whenever the copied file's own
name does not end in `.json`. -/
theorem c10_send_email (p ts : String) (sent : List String)
    (hb : strEnds ".json" (ts ++ "_" ++ p) = false) :
    send_simulated_email p false ts sent = (.error (.fileNotFound p), sent) ∧
    ∃ m fs2, send_simulated_email p true ts sent = (.ok m, fs2) ∧
      m.attachment = ts ++ "_" ++ p ∧ (ts ++ "_" ++ p) ∈ fs2 ∧
      m.id = countJson sent + 1 := by
  refine ⟨rfl, _, _, rfl, rfl, ?_, ?_⟩
  · exact List.mem_cons_of_mem _ (List.mem_cons_self _ _)
  · show countJson ((ts ++ "_" ++ p) :: sent) + 1 = countJson sent + 1
    rw [countJson_cons_false _ _ hb]

/-- Witness for C10 on a store already holding one metadata file. -/
theorem c10_send_email_witness :
    strEnds ".json" ("ts2" ++ "_" ++ "sales.pdf") = false ∧
    (send_simulated_email "sales.pdf" false "ts2" ["1.json"] =
        (.error (.fileNotFound "sales.pdf"), ["1.json"]) ∧
     ∃ m fs2, send_simulated_email "sales.pdf" true "ts2" ["1.json"] = (.ok m, fs2) ∧
       m.attachment = "ts2" ++ "_" ++ "sales.pdf" ∧
       ("ts2" ++ "_" ++ "sales.pdf") ∈ fs2 ∧
       m.id = countJson ["1.json"] + 1) :=
  ⟨by decide, c10_send_email "sales.pdf" "ts2" ["1.json"] (by decide)⟩

/-- Counterexample for C10 as stated: sending a file named `report.json`
into an empty store yields metadata id `2`, not `0 + 1`: the `*.json` glob
runs after the attachment copy and counts the attachment itself. -/
theorem c10_counterexample :
    (send_simulated_email "report.json" true "ts" []).1 =
      .ok ⟨2, "ts", "abdullahkh1298@gmail.com", "boss@example.com",
           "Monthly Sales Report", "Please find attached.", "ts_report.json"⟩ ∧
    countJson [] = 0 :=
  ⟨by decide, rfl⟩

/-! ### Claim C3: the top-models aggregate -/

/-- Claim C3 (amended): the top-models aggregate has length at most 5 and is
sorted by descending revenue with ties in ascending label order (the
grouping sorts its keys; first-seen input order is not used); and whenever
every row total is nonnegative, the sum of the listed revenues is at most
`total_revenue`. -/
theorem c3_top_models (table : List SalesRow) :
    (topModels table).length ≤ 5 ∧
    (topModels table).Pairwise topOrd ∧
    ((∀ r ∈ table, 0 ≤ rowTot r) →
      ((topModels table).map Prod.snd).sum ≤ totalRevenue table) := by
  refine ⟨?_, ?_, ?_⟩
  · exact List.length_take_le 5 _
  · apply List.Pairwise.sublist (List.take_sublist 5 _)
    apply pairwise_topOrd_sortOrd
    rw [List.pairwise_map]
    exact modelKeys_sorted table
  · intro hpos
    unfold topModels
    set G := (modelKeys table).map (fun m => (m, grpRev table m)) with hG
    have hnn : ∀ x ∈ (sortOrd revLe G).map Prod.snd, 0 ≤ x := by
      intro x hx
      rcases List.mem_map.mp hx with ⟨g, hg, rfl⟩
      have hg2 : g ∈ G := (perm_sortOrd revLe G).mem_iff.mp hg
      rw [hG] at hg2
      rcases List.mem_map.mp hg2 with ⟨m, hm, rfl⟩
      exact grpRev_nonneg table hpos m
    have h1 : (((sortOrd revLe G).take 5).map Prod.snd).sum ≤
        ((sortOrd revLe G).map Prod.snd).sum :=
      List.Sublist.sum_le_sum ((List.take_sublist 5 _).map Prod.snd) hnn
    have h2 : ((sortOrd revLe G).map Prod.snd).sum = (G.map Prod.snd).sum :=
      ((perm_sortOrd revLe G).map Prod.snd).sum_eq
    have h3 : (G.map Prod.snd).sum =
        ((modelKeys table).map (fun m => grpRev table m)).sum := by
      rw [hG, List.map_map]
      rfl
    have h4 := sum_grpRev_le (modelKeys table) (modelKeys_nodup table) table hpos
    linarith [h1, h2, h3, h4]

/-- Witness for C3 on a nonnegative two-model table. -/
theorem c3_top_models_witness :
    (∀ r ∈ c3wTable, 0 ≤ rowTot r) ∧
    ((topModels c3wTable).map Prod.snd).sum ≤ totalRevenue c3wTable :=
  ⟨by decide, (c3_top_models c3wTable).2.2 (by decide)⟩

/-- Counterexample for C3 as stated: in `c3Table` the input order of the
tied models (revenue 10) is `B` before `A`, yet the aggregate lists `A`
first (ties follow the alphabetical key order of the groupby); and because
the dropped sixth model `G` has negative revenue, the sum of the five listed
revenues (41) exceeds `total_revenue` (40). -/
theorem c3_counterexample :
    c3Table.map (fun r => r.model) =
      [some "B", some "A", some "C", some "D", some "E", some "F", some "G"] ∧
    (topModels c3Table).map Prod.fst = ["A", "B", "C", "D", "E"] ∧
    totalRevenue c3Table < ((topModels c3Table).map Prod.snd).sum :=
  ⟨by decide, by decide, by decide⟩

/-! ### Claim C7: the daily series -/

theorem dateLe_total : ∀ a b : ℕ × Money, dateLe a b = false → dateLe b a = true := by
  intro a b h
  unfold dateLe at h ⊢
  rw [decide_eq_false_iff_not] at h
  exact decide_eq_true (le_of_lt (lt_of_not_le h))

theorem dateLe_trans : ∀ a b c : ℕ × Money,
    dateLe a b = true → dateLe b c = true → dateLe a c = true := by
  intro a b c hab hbc
  unfold dateLe at hab hbc ⊢
  rw [decide_eq_true_iff] at hab hbc
  exact decide_eq_true (le_trans hab hbc)

theorem dailyGroups_fst (table : List SalesRow) :
    (dailyGroups table).map Prod.fst = dateKeys table := by
  unfold dailyGroups
  rw [List.map_map]
  rw [show (Prod.fst ∘ fun d => (d, dateRevenue table d)) = @id String from rfl]
  exact List.map_id _

theorem toDatetimeAll_forall2 :
    ∀ (gl : List (String × Money)) (pl : List (ℕ × Money)),
    toDatetimeAll gl = some pl →
    List.Forall₂ (fun g p => parseDate g.1 = some p.1 ∧ g.2 = p.2) gl pl := by
  intro gl
  induction gl with
  | nil =>
    intro pl h
    simp only [toDatetimeAll, Option.some.injEq] at h
    rw [← h]
    exact List.Forall₂.nil
  | cons e l ih =>
    intro pl h
    simp only [toDatetimeAll] at h
    cases hpd : parseDate e.1 with
    | none => rw [hpd] at h; simp at h
    | some d =>
      rw [hpd] at h
      cases hta : toDatetimeAll l with
      | none => rw [hta] at h; simp at h
      | some rest =>
        rw [hta] at h
        simp only [Option.some.injEq] at h
        rw [← h]
        exact List.Forall₂.cons ⟨hpd, rfl⟩ (ih rest hta)

/-- Claim C7 (amended): the daily series groups rows on exact equality of
the date string, each group's revenue is the sum of the totals carrying that
exact date, and after sorting by parsed calendar date the sequence is
non-decreasing; it is strictly ascending exactly when the distinct date
strings parse to pairwise distinct calendar dates — two spellings of the
same date yield a duplicate. -/
theorem c7_daily_series (table : List SalesRow) (s : List (ℕ × Money))
    (h : dailySeries table = some s) :
    (∀ e ∈ dailyGroups table, e.2 = dateRevenue table e.1) ∧
    ((dailyGroups table).map Prod.fst).Nodup ∧
    s.Pairwise (fun a b => a.1 ≤ b.1) ∧
    ((dateKeys table).Pairwise (fun d1 d2 => parseDate d1 ≠ parseDate d2) →
      s.Pairwise (fun a b => a.1 < b.1)) := by
  have hgl : ∃ pl, toDatetimeAll (dailyGroups table) = some pl ∧ s = sortOrd dateLe pl := by
    unfold dailySeries at h
    cases hta : toDatetimeAll (dailyGroups table) with
    | none => rw [hta] at h; simp at h
    | some pl =>
      rw [hta] at h
      simp only [Option.some.injEq] at h
      exact ⟨pl, rfl, h.symm⟩
  rcases hgl with ⟨pl, hta, rfl⟩
  refine ⟨?_, ?_, ?_, ?_⟩
  · intro e he
    unfold dailyGroups at he
    rcases List.mem_map.mp he with ⟨d, _, rfl⟩
    rfl
  · rw [dailyGroups_fst]
    exact dateKeys_nodup table
  · exact (pairwise_sortOrd dateLe dateLe_total dateLe_trans pl).imp
      (fun hab => of_decide_eq_true hab)
  · intro hinj
    have hglp : (dailyGroups table).Pairwise (fun g1 g2 => parseDate g1.1 ≠ parseDate g2.1) := by
      unfold dailyGroups
      rw [List.pairwise_map]
      exact hinj
    have hplp : pl.Pairwise (fun p1 p2 => p1.1 ≠ p2.1) := by
      apply pairwise_of_forall2 ?_ _ _ (toDatetimeAll_forall2 _ _ hta) hglp
      intro a b a2 b2 ha hb hs hEq
      apply hs
      rw [ha.1, hb.1, hEq]
    have hsp : (sortOrd dateLe pl).Pairwise (fun p1 p2 => p1.1 ≠ p2.1) :=
      (List.Perm.pairwise_iff (fun hxy => Ne.symm hxy) (perm_sortOrd dateLe pl)).mpr hplp
    have hle := (pairwise_sortOrd dateLe dateLe_total dateLe_trans pl).imp
      (fun hab => of_decide_eq_true hab)
    exact (hle.and hsp).imp (fun hh => lt_of_le_of_ne hh.1 hh.2)

/-- Witness for C7 on two distinct, distinctly-parsing dates. -/
theorem c7_daily_series_witness :
    dailySeries c7wTable = some [((20240101 : ℕ), (2 : Money)), (20240102, 3)] ∧
    (dateKeys c7wTable).Pairwise (fun d1 d2 => parseDate d1 ≠ parseDate d2) ∧
    List.Pairwise (fun a b : ℕ × Money => a.1 < b.1)
      [((20240101 : ℕ), (2 : Money)), (20240102, 3)] :=
  ⟨by decide, by decide,
   (c7_daily_series c7wTable [((20240101 : ℕ), (2 : Money)), (20240102, 3)]
     (by decide)).2.2.2 (by decide)⟩

/-- Counterexample for C7 as stated: the two distinct date strings
`2024-01-01` and `2024/01/01` parse to the same calendar date, so the sorted
daily series carries a duplicate date and is not strictly ascending. -/
theorem c7_counterexample :
    dailySeries c7Table = some [((20240101 : ℕ), (1 : Money)), (20240101, 2)] ∧
    ¬ List.Pairwise (fun a b : ℕ × Money => a.1 < b.1)
      [((20240101 : ℕ), (1 : Money)), (20240101, 2)] :=
  ⟨by decide, by decide⟩

/-! ### Claim C8: temporary chart artifacts -/

theorem mem_rmFile_iff (fs : List String) (p a : String) :
    a ∈ rmFile fs p ↔ a ∈ fs ∧ a ≠ p := by
  simp [rmFile, List.mem_filter]

theorem not_mem_rmFile (fs : List String) (p : String) : p ∉ rmFile fs p := by
  intro h
  exact ((mem_rmFile_iff fs p p).mp h).2 rfl

theorem mem_rmdirIfEmpty_sub {fs : List String} {d a : String}
    (h : a ∈ rmdirIfEmpty fs d) : a ∈ fs := by
  unfold rmdirIfEmpty at h
  by_cases hc : fs.any (fun f => f ≠ d && strStarts (d ++ "/") f) = true
  · rwa [if_pos hc] at h
  · rw [if_neg hc] at h
    exact ((mem_rmFile_iff fs d a).mp h).1

theorem generate_pdf_ok_fs (rows : List RawRow) (outPath : String) (b : Bool)
    (fs : List String) (p : String) (fs2 : List String)
    (h : generate_pdf rows outPath b fs = (.ok p, fs2)) :
    fs2 = rmdirIfEmpty
      (rmFile (rmFile (outPath :: dailyPath :: piePath :: tmpd :: fs) piePath) dailyPath)
      tmpd := by
  unfold generate_pdf at h
  cases hdf : safeDfFromRows rows with
  | error e => rw [hdf] at h; simp at h
  | ok df =>
    rw [hdf] at h
    simp only at h
    cases hm : hasModelColT df with
    | false => rw [hm] at h; simp at h
    | true =>
      rw [hm] at h
      simp only [if_true] at h
      cases hd : hasDateColT df with
      | false => rw [hd] at h; simp at h
      | true =>
        rw [hd] at h
        simp only [if_true] at h
        cases hta : toDatetimeAll (dailyGroups df) with
        | none => rw [hta] at h; simp at h
        | some pl =>
          rw [hta] at h
          simp only at h
          cases b with
          | false => simp at h
          | true =>
            simp only [if_true] at h
            rw [Prod.mk.injEq] at h
            exact h.2.symm

/-- Claim C8 (amended): when `generate_pdf` succeeds, the two temporary
chart images and (when nothing else occupies it) the temporary directory are
removed from the filesystem; but the cleanup runs only after a successful
`doc.build`, so a failure after chart creation leaves the temporary
artifacts behind (see the counterexample). -/
theorem c8_cleanup_on_success (rows : List RawRow) (outPath p : String) (b : Bool)
    (fs fs2 : List String) (h : generate_pdf rows outPath b fs = (.ok p, fs2))
    (hout : strStarts (tmpd ++ "/") outPath = false)
    (hfs : ∀ f ∈ fs, strStarts (tmpd ++ "/") f = false) :
    piePath ∉ fs2 ∧ dailyPath ∉ fs2 ∧ tmpd ∉ fs2 := by
  have hshape := generate_pdf_ok_fs rows outPath b fs p fs2 h
  subst hshape
  refine ⟨?_, ?_, ?_⟩
  · intro hmem
    have h2 := mem_rmdirIfEmpty_sub hmem
    have h3 := ((mem_rmFile_iff _ _ _).mp h2).1
    exact not_mem_rmFile _ _ h3
  · intro hmem
    have h2 := mem_rmdirIfEmpty_sub hmem
    exact ((mem_rmFile_iff _ _ _).mp h2).2 rfl
  · intro hmem
    have hcheck : (rmFile (rmFile (outPath :: dailyPath :: piePath :: tmpd :: fs) piePath)
        dailyPath).any (fun f => f ≠ tmpd && strStarts (tmpd ++ "/") f) = false := by
      rw [Bool.eq_false_iff]
      intro hany
      rw [List.any_eq_true] at hany
      rcases hany with ⟨x, hx, hpx⟩
      rw [Bool.and_eq_true] at hpx
      have hx1 := (mem_rmFile_iff _ _ _).mp hx
      have hx2 := (mem_rmFile_iff _ _ _).mp hx1.1
      have hxmem := hx2.1
      rcases List.mem_cons.mp hxmem with rfl | hxm2
      · rw [hout] at hpx
        exact Bool.false_ne_true hpx.2
      rcases List.mem_cons.mp hxm2 with rfl | hxm3
      · exact hx1.2 rfl
      rcases List.mem_cons.mp hxm3 with rfl | hxm4
      · exact hx2.2 rfl
      rcases List.mem_cons.mp hxm4 with rfl | hxm5
      · exact (of_decide_eq_true hpx.1) rfl
      · rw [hfs x hxm5] at hpx
        exact Bool.false_ne_true hpx.2
    unfold rmdirIfEmpty at hmem
    rw [hcheck] at hmem
    rw [if_neg Bool.false_ne_true] at hmem
    exact not_mem_rmFile _ _ hmem

/-- Witness for C8: a successful run leaves only the output file. -/
theorem c8_cleanup_on_success_witness :
    generate_pdf c8Rows "out.pdf" true [] = (.ok "out.pdf", ["out.pdf"]) ∧
    strStarts (tmpd ++ "/") "out.pdf" = false ∧
    (piePath ∉ ["out.pdf"] ∧ dailyPath ∉ ["out.pdf"] ∧ tmpd ∉ ["out.pdf"]) :=
  ⟨by decide, by decide,
   c8_cleanup_on_success c8Rows "out.pdf" "out.pdf" true [] ["out.pdf"]
     (by decide) (by decide) (by decide)⟩

/-- Counterexample for C8 as stated: when `doc.build` fails after the charts
were created, the run exits with the build error and both chart images and
the temporary directory are still present — the cleanup is not on the
failure path. -/
theorem c8_counterexample :
    (generate_pdf c8Rows "out.pdf" false []).1 = .error .composeError ∧
    piePath ∈ (generate_pdf c8Rows "out.pdf" false []).2 ∧
    dailyPath ∈ (generate_pdf c8Rows "out.pdf" false []).2 ∧
    tmpd ∈ (generate_pdf c8Rows "out.pdf" false []).2 :=
  ⟨by decide, by decide, by decide, by decide⟩
